import Mathlib

/-!
Verification of the soundboard terminal application (src/main.rs).

The development shallowly embeds the program's data model and control flow:
the fixed clip configuration `CONFIG`, the event dispatcher `handle_events`,
the per-frame memoized layout step of `main`'s draw loop, the layout tree
construction `generate_taffy_tree`, and the exit-path trace of `main`.
Machine integers (u16 coordinates) are modelled as `Nat` with explicit
saturation where the source saturates.
-/

namespace Soundboard

/-- Subset of crossterm `KeyCode` used by the source: `Char(c)` and `Esc`. -/
inductive KeyCode where
  | Char : Char → KeyCode
  | Esc : KeyCode
deriving DecidableEq, Repr

/-- Opaque identifier standing for a `&[u8]` clip byte buffer
(the buffers are `include_bytes!` assets, identified here by asset name). -/
abbrev Bytes := String

/-- Rust `type ConfigEntry = (KeyCode, (&str, &[u8]))`. -/
abbrev ConfigEntry := KeyCode × (String × Bytes)

/-- The fixed compile-time configuration table `CONFIG` from src/main.rs. -/
def CONFIG : List ConfigEntry :=
  [ (KeyCode.Char 'g', ("geen-grote-blij", "geen-grote-blij")),
    (KeyCode.Char 'b', ("grote-blij", "grote-blij")),
    (KeyCode.Char 'p', ("puree", "puree")) ]

/-- ratatui `Rect` (all fields u16 in the source, modelled as `Nat`). -/
structure Rect where
  x : Nat
  y : Nat
  width : Nat
  height : Nat
deriving DecidableEq, Repr

/-- ratatui `Position` (u16 column/row). -/
structure Position where
  x : Nat
  y : Nat
deriving DecidableEq, Repr

/-- u16 saturating addition, as in ratatui's `Rect::right`/`Rect::bottom`
(`self.x.saturating_add(self.width)`). -/
def sat16 (n : Nat) : Nat := min n 65535

/-- ratatui `Rect::right(): x.saturating_add(width)`. -/
def Rect.right (r : Rect) : Nat := sat16 (r.x + r.width)

/-- ratatui `Rect::bottom(): y.saturating_add(height)`. -/
def Rect.bottom (r : Rect) : Nat := sat16 (r.y + r.height)

/-- ratatui `Rect::contains(position)`: half-open containment
`x <= px < right && y <= py < bottom` (library code not under src/,
embedded from ratatui's definition of `contains`). -/
def Rect.contains (r : Rect) (p : Position) : Bool :=
  decide (r.x ≤ p.x) && decide (p.x < r.right) &&
  decide (r.y ≤ p.y) && decide (p.y < r.bottom)

/-- crossterm `KeyEventKind`. -/
inductive KeyEventKind where
  | Press
  | Repeat
  | Release
deriving DecidableEq, Repr

/-- crossterm `KeyEvent`: the source only ever reads `.code` and `.kind`;
modifiers are carried to state that dispatch ignores them. -/
structure KeyEvent where
  code : KeyCode
  modifiers : Nat
  kind : KeyEventKind
deriving DecidableEq, Repr

/-- crossterm `MouseButton`. -/
inductive MouseButton where
  | Left
  | Right
  | Middle
deriving DecidableEq, Repr

/-- crossterm `MouseEventKind`: the source only distinguishes `Up(_)`
from everything else. -/
inductive MouseEventKind where
  | Down : MouseButton → MouseEventKind
  | Up : MouseButton → MouseEventKind
  | Drag : MouseButton → MouseEventKind
  | Moved
  | ScrollDown
  | ScrollUp
deriving DecidableEq, Repr

/-- crossterm `MouseEvent` (column/row are u16). -/
structure MouseEvent where
  kind : MouseEventKind
  column : Nat
  row : Nat
deriving DecidableEq, Repr

/-- crossterm `Event`: `Key`, `Mouse`, and the other variants the source's
`_ => {}` arm ignores (FocusGained, FocusLost, Paste, Resize). -/
inductive Event where
  | Key : KeyEvent → Event
  | Mouse : MouseEvent → Event
  | FocusGained
  | FocusLost
  | Resize : Nat → Nat → Event
deriving DecidableEq, Repr

/-- Result of one call to `handle_events`: the clip buffers handed to
`thread::spawn(|| play_sound(..))`, in launch order, and the returned
`should_quit` boolean. -/
structure DispatchResult where
  launches : List Bytes
  quit : Bool
deriving DecidableEq, Repr

/-- Function `handle_events` from src/main.rs, on the successful path of
`event::poll` / `event::read`: `none` models a poll timeout (no event).
Key presses scan `CONFIG` for code matches (spawning one playback per
match), then check `Esc`; mouse `Up` events scan the hit-map `targets`;
all other events fall to `_ => {}`. -/
def handle_events (targets : List (Rect × Bytes)) (ev : Option Event) :
    DispatchResult :=
  match ev with
  | none => ⟨[], false⟩
  | some (Event.Key key) =>
      if key.kind = KeyEventKind.Press then
        let launches :=
          (CONFIG.filter (fun c => key.code = c.1)).map (fun c => c.2.2)
        if key.code = KeyCode.Esc then ⟨launches, true⟩
        else ⟨launches, false⟩
      else ⟨[], false⟩
  | some (Event.Mouse m) =>
      match m.kind with
      | MouseEventKind.Up _ =>
          ⟨(targets.filter
              (fun rd => rd.1.contains ⟨m.column, m.row⟩)).map (fun rd => rd.2),
           false⟩
      | _ => ⟨[], false⟩
  | some _ => ⟨[], false⟩

/-- Viewport size in terminal cells (the width/height of `frame.size()`,
u16 in the source). -/
structure Size where
  width : Nat
  height : Nat
deriving DecidableEq, Repr

/-- Modelled from the spec: the taffy grid track resolution (external crate,
not under src/). The root grid declares one `repeat(auto-fit, minmax(10, 40))`
column track; auto-fit chooses as many columns as fit the available width
under the 10-cell minimum, and at least one column. -/
def ncols (W : Nat) : Nat := max 1 (W / 10)

/-- Modelled from the spec: each column's width is the available width shared
equally among the fitted columns, clamped to the inclusive range [10, 40]. -/
def colWidth (W : Nat) : Nat := min (max (W / ncols W) 10) 40

/-- Modelled from the spec: the resolved rectangle of the tile with index `i`,
placed row-major into the fitted columns; every tile has fixed height 5 and
stretches to its column's width. -/
def tileRect (W : Nat) (i : Nat) : Rect :=
  ⟨(i % ncols W) * colWidth W, (i / ncols W) * 5, colWidth W, 5⟩

/-- The root container occupies exactly the full viewport
(`Dimension::Percent(1.0)` in both axes, located at the origin). -/
def containerRect (sz : Size) : Rect :=
  ⟨0, 0, sz.width, sz.height⟩

/-- Resolved rectangles of the tile leaves, one per `CONFIG` entry, in
creation order. -/
def tileRects (W : Nat) : List Rect :=
  (List.range CONFIG.length).map (tileRect W)

/-- Modelled from the spec: `tree.compute_layout(root_node, viewport_size)` —
the resolved rectangle of every node of the fixed tree (root container first,
then the tile leaves), a pure function of the viewport size. -/
def computeLayout (sz : Size) : List Rect :=
  containerRect sz :: tileRects sz.width

/-- Result of `generate_taffy_tree`: tile-leaf node ids in creation order
(`tree.new_leaf` hands out sequential ids), the root node id (created last),
and the `mapping: HashMap<NodeId, ConfigEntry>` as an association list in
insertion order. -/
structure TreeResult where
  leaves : List Nat
  root : Nat
  mapping : List (Nat × ConfigEntry)
deriving DecidableEq, Repr

/-- Function `generate_taffy_tree` from src/main.rs: one leaf per `CONFIG`
entry, each inserted into the mapping with its entry, then the root grid
node with all leaves as children. -/
def generate_taffy_tree : TreeResult :=
  { leaves := List.range CONFIG.length
    root := CONFIG.length
    mapping := CONFIG.enum }

/-- Mutable state of `main`'s draw loop: `last_computed_size`, the layout
geometry stored in the tree, and the tree shape plus node binding (built
once before the loop). -/
structure LoopState where
  last_computed_size : Option Size
  rects : List Rect
  tree : TreeResult
deriving DecidableEq, Repr

/-- State of `main` just before the first frame: no size resolved yet, no
geometry computed, tree and mapping freshly built. -/
def initialState : LoopState :=
  { last_computed_size := none
    rects := []
    tree := generate_taffy_tree }

/-- One execution of the draw closure in `main`: recompute the layout only
if `last_computed_size != Some(frame.size())`, then record the size. The
returned boolean reports whether `compute_layout` ran this frame. -/
def frameStep (s : LoopState) (sz : Size) : LoopState × Bool :=
  if s.last_computed_size = some sz then (s, false)
  else ({ s with last_computed_size := some sz, rects := computeLayout sz }, true)

/-- Iterated draw frames at the given sequence of viewport sizes. -/
def runFrames (s : LoopState) (szs : List Size) : LoopState :=
  szs.foldl (fun t sz => (frameStep t sz).1) s

/-- Coherence of the layout cache: whatever size was last resolved, the
stored rectangles are its resolution. Holds of `initialState` and is
preserved by `frameStep`. -/
def LayoutInv (s : LoopState) : Prop :=
  ∀ sz, s.last_computed_size = some sz → s.rects = computeLayout sz

/-- Terminal modes toggled by `main`: raw mode, alternate screen, mouse
capture. -/
structure TermState where
  rawMode : Bool
  altScreen : Bool
  mouseCapture : Bool
deriving DecidableEq, Repr

/-- Outcome of one iteration of `main`'s loop in the exit-path model:
`drawErr` = `terminal.draw(..)?` fails; `pollErr` = `event::poll`/`event::read`
inside `handle_events` fails (the `?` propagates); `quitFrame` =
`handle_events` returns `Ok(true)`; `next` = `Ok(false)`, loop continues. -/
inductive FrameOutcome where
  | drawErr
  | pollErr
  | quitFrame
  | next
deriving DecidableEq, Repr

/-- How `main`'s `while !should_quit` loop ends for a given schedule of
frame outcomes. -/
inductive LoopResult where
  | ranOut
  | ioErr
  | quitOk
deriving DecidableEq, Repr

/-- Trace of the loop: the first erroneous frame propagates out of `main`
via `?`; a quit frame leaves the loop normally; an exhausted schedule means
the loop is still running. -/
def mainLoop : List FrameOutcome → LoopResult
  | [] => LoopResult.ranOut
  | f :: fs =>
    match f with
    | FrameOutcome.drawErr => LoopResult.ioErr
    | FrameOutcome.pollErr => LoopResult.ioErr
    | FrameOutcome.quitFrame => LoopResult.quitOk
    | FrameOutcome.next => mainLoop fs

/-- Result of running `main` to an observation point: either the loop is
still running, or the process exits (`Bool` = exited with `Ok`), recording
the terminal state left behind at exit. -/
inductive MainResult where
  | running
  | exited : Bool → TermState → MainResult
deriving DecidableEq, Repr

/-- Teardown tail of `main` after the loop exits normally:
`disable_raw_mode()?` then `execute(DisableMouseCapture)?` then
`execute(LeaveAlternateScreen)?`; a failing step propagates with the modes
reset so far.  -/
def mainTeardown (okDisableRaw okDisableMouse okLeaveAlt : Bool) : MainResult :=
  if !okDisableRaw then MainResult.exited false ⟨true, true, true⟩
  else if !okDisableMouse then MainResult.exited false ⟨false, true, true⟩
  else if !okLeaveAlt then MainResult.exited false ⟨false, true, false⟩
  else MainResult.exited true ⟨false, false, false⟩

/-- Exit-path trace of `main` from src/main.rs. Oracle booleans give the
success of each fallible startup and teardown operation, in program order:
`color_eyre::install()?`, `enable_raw_mode()?`, `execute(EnterAlternateScreen)?`,
`execute(EnableMouseCapture)?`, `Terminal::new(..)?`, then the loop, then the
teardown. Each `?` that fires returns from `main` immediately with whatever
terminal modes are set at that point. -/
def runMain (okInstall okRaw okEnterAlt okEnableMouse okNewTerm : Bool)
    (frames : List FrameOutcome)
    (okDisableRaw okDisableMouse okLeaveAlt : Bool) : MainResult :=
  if !okInstall then MainResult.exited false ⟨false, false, false⟩
  else if !okRaw then MainResult.exited false ⟨false, false, false⟩
  else if !okEnterAlt then MainResult.exited false ⟨true, false, false⟩
  else if !okEnableMouse then MainResult.exited false ⟨true, true, false⟩
  else if !okNewTerm then MainResult.exited false ⟨true, true, true⟩
  else
    match mainLoop frames with
    | LoopResult.ranOut => MainResult.running
    | LoopResult.ioErr => MainResult.exited false ⟨true, true, true⟩
    | LoopResult.quitOk => mainTeardown okDisableRaw okDisableMouse okLeaveAlt

/-- Membership of a terminal cell (column, row) in a rectangle, in exact
`Nat` arithmetic (layout rectangles are far from the u16 range). -/
def Rect.covers (r : Rect) (col row : Nat) : Prop :=
  r.x ≤ col ∧ col < r.x + r.width ∧ r.y ≤ row ∧ row < r.y + r.height

instance (r : Rect) (col row : Nat) : Decidable (r.covers col row) :=
  inferInstanceAs (Decidable (_ ∧ _ ∧ _ ∧ _))

/-- Two rectangles are disjoint when no cell lies in both. -/
def Rect.Disjoint (a b : Rect) : Prop :=
  ∀ col row, ¬(a.covers col row ∧ b.covers col row)

/-- Containment of rectangles, cellwise. -/
def Rect.within (inner outer : Rect) : Prop :=
  ∀ col row, inner.covers col row → outer.covers col row

lemma contains_eq_decide (r : Rect) (p : Position)
    (h1 : r.x + r.width ≤ 65535) (h2 : r.y + r.height ≤ 65535) :
    r.contains p
      = decide (r.x ≤ p.x ∧ p.x < r.x + r.width ∧ r.y ≤ p.y ∧ p.y < r.y + r.height) := by
  simp only [Rect.contains, Rect.right, Rect.bottom, sat16, Nat.min_eq_left h1,
    Nat.min_eq_left h2, Bool.decide_and, Bool.and_assoc]

/-- C2: for every key-press event, playback is launched once per `CONFIG`
entry whose trigger key equals the pressed key's code (zero launches when
none matches); Escape, checked after trigger matching, quits the loop and
itself launches no playback. -/
theorem C2_key_dispatch (targets : List (Rect × Bytes)) (key : KeyEvent)
    (hp : key.kind = KeyEventKind.Press) :
    (handle_events targets (some (Event.Key key))).launches
        = (CONFIG.filter (fun c => key.code = c.1)).map (fun c => c.2.2) ∧
    ((handle_events targets (some (Event.Key key))).quit ↔ key.code = KeyCode.Esc) ∧
    (key.code = KeyCode.Esc →
      (handle_events targets (some (Event.Key key))).launches = []) := by
  by_cases hesc : key.code = KeyCode.Esc <;>
    simp [handle_events, hp, hesc, CONFIG]

/-- C2 witness: pressing 'g' launches exactly the matching entry's clip;
pressing Escape quits and launches nothing. -/
theorem C2_key_dispatch_witness :
    (⟨KeyCode.Char 'g', 0, KeyEventKind.Press⟩ : KeyEvent).kind = KeyEventKind.Press ∧
    (handle_events [] (some (Event.Key ⟨KeyCode.Char 'g', 0, KeyEventKind.Press⟩))).launches
      = (CONFIG.filter
          (fun c => (⟨KeyCode.Char 'g', 0, KeyEventKind.Press⟩ : KeyEvent).code = c.1)).map
          (fun c => c.2.2) ∧
    (handle_events [] (some (Event.Key ⟨KeyCode.Esc, 0, KeyEventKind.Press⟩))).launches = [] ∧
    (handle_events [] (some (Event.Key ⟨KeyCode.Esc, 0, KeyEventKind.Press⟩))).quit = true :=
  ⟨rfl,
   (C2_key_dispatch [] ⟨KeyCode.Char 'g', 0, KeyEventKind.Press⟩ rfl).1,
   (C2_key_dispatch [] ⟨KeyCode.Esc, 0, KeyEventKind.Press⟩ rfl).2.2 rfl,
   (C2_key_dispatch [] ⟨KeyCode.Esc, 0, KeyEventKind.Press⟩ rfl).2.1.mpr rfl⟩

/-- C3: a pointer-release is tested against every hit-map rectangle and
launches the bound bytes of each containing rectangle; a position inside
exactly one rectangle launches exactly that clip; mouse events that are not
a release, and focus/resize events, are ignored. -/
theorem C3_mouse_dispatch (targets : List (Rect × Bytes)) (col row : Nat)
    (b : MouseButton) :
    ((handle_events targets
        (some (Event.Mouse ⟨MouseEventKind.Up b, col, row⟩))).launches
        = (targets.filter (fun rd => rd.1.contains ⟨col, row⟩)).map (fun rd => rd.2)
      ∧ (handle_events targets
          (some (Event.Mouse ⟨MouseEventKind.Up b, col, row⟩))).quit = false)
    ∧ (∀ r d, (r, d) ∈ targets → r.contains ⟨col, row⟩ = true →
        targets.countP (fun rd => rd.1.contains ⟨col, row⟩) = 1 →
        (handle_events targets
          (some (Event.Mouse ⟨MouseEventKind.Up b, col, row⟩))).launches = [d])
    ∧ (∀ m : MouseEvent, (∀ b', m.kind ≠ MouseEventKind.Up b') →
        handle_events targets (some (Event.Mouse m)) = ⟨[], false⟩)
    ∧ handle_events targets (some Event.FocusGained) = ⟨[], false⟩
    ∧ handle_events targets (some Event.FocusLost) = ⟨[], false⟩
    ∧ (∀ w h, handle_events targets (some (Event.Resize w h)) = ⟨[], false⟩) := by
  refine ⟨⟨rfl, rfl⟩, ?_, ?_, rfl, rfl, fun w h => rfl⟩
  · intro r d hmem hcont hcnt
    have hlen : (targets.filter (fun rd => rd.1.contains ⟨col, row⟩)).length = 1 := by
      rw [← List.countP_eq_length_filter]
      exact hcnt
    obtain ⟨a, ha⟩ := List.length_eq_one.mp hlen
    have hm : (r, d) ∈ targets.filter (fun rd => rd.1.contains ⟨col, row⟩) :=
      List.mem_filter.mpr ⟨hmem, hcont⟩
    rw [ha] at hm
    have : a = (r, d) := (List.mem_singleton.mp hm).symm
    show (targets.filter _).map _ = [d]
    rw [ha, this]
    rfl
  · intro m hne
    rcases m with ⟨k, c, w⟩
    cases k with
    | Down b' => rfl
    | Up b' => exact absurd rfl (hne b')
    | Drag b' => rfl
    | Moved => rfl
    | ScrollDown => rfl
    | ScrollUp => rfl

/-- C3 witness: with two disjoint hit-map rectangles, a release inside only
the first launches exactly its clip; a mouse-move event is ignored. -/
theorem C3_mouse_dispatch_witness :
    (handle_events [(⟨0, 0, 10, 5⟩, "a"), (⟨10, 0, 10, 5⟩, "b")]
        (some (Event.Mouse ⟨MouseEventKind.Up MouseButton.Left, 5, 2⟩))).launches = ["a"] ∧
    handle_events [(⟨0, 0, 10, 5⟩, "a")] (some (Event.Mouse ⟨MouseEventKind.Moved, 5, 2⟩))
      = ⟨[], false⟩ :=
  ⟨(C3_mouse_dispatch [(⟨0, 0, 10, 5⟩, "a"), (⟨10, 0, 10, 5⟩, "b")] 5 2
      MouseButton.Left).2.1 ⟨0, 0, 10, 5⟩ "a" (by decide) (by decide) (by decide),
   (C3_mouse_dispatch [(⟨0, 0, 10, 5⟩, "a")] 5 2 MouseButton.Left).2.2.1
      ⟨MouseEventKind.Moved, 5, 2⟩ (fun b' h => nomatch h)⟩

/-- C9: hit-testing is half-open and inclusive of the top and left border
cells: a release at (col, row) fires a hit-map rectangle (x, y, w, h)
exactly when x ≤ col < x + w and y ≤ row < y + h (for rectangles whose
extents do not saturate u16 arithmetic, as all layout rectangles do not). -/
theorem C9_halfopen_hit (targets : List (Rect × Bytes)) (col row : Nat)
    (b : MouseButton)
    (hb : ∀ rd ∈ targets,
      rd.1.x + rd.1.width ≤ 65535 ∧ rd.1.y + rd.1.height ≤ 65535) :
    (handle_events targets
        (some (Event.Mouse ⟨MouseEventKind.Up b, col, row⟩))).launches
      = (targets.filter (fun rd =>
          decide (rd.1.x ≤ col ∧ col < rd.1.x + rd.1.width ∧
                  rd.1.y ≤ row ∧ row < rd.1.y + rd.1.height))).map (fun rd => rd.2) := by
  show (targets.filter (fun rd => rd.1.contains ⟨col, row⟩)).map (fun rd => rd.2) = _
  congr 1
  apply List.filter_congr
  intro rd hrd
  exact contains_eq_decide rd.1 ⟨col, row⟩ (hb rd hrd).1 (hb rd hrd).2

/-- C9 witness: a release at the top-left border cell (0,0) of the
rectangle (0,0,10,5) fires its clip. -/
theorem C9_halfopen_hit_witness :
    (∀ rd ∈ ([(⟨0, 0, 10, 5⟩, "a")] : List (Rect × Bytes)),
      rd.1.x + rd.1.width ≤ 65535 ∧ rd.1.y + rd.1.height ≤ 65535) ∧
    (handle_events [(⟨0, 0, 10, 5⟩, "a")]
        (some (Event.Mouse ⟨MouseEventKind.Up MouseButton.Left, 0, 0⟩))).launches
      = (([(⟨0, 0, 10, 5⟩, "a")] : List (Rect × Bytes)).filter (fun rd =>
          decide (rd.1.x ≤ 0 ∧ 0 < rd.1.x + rd.1.width ∧
                  rd.1.y ≤ 0 ∧ 0 < rd.1.y + rd.1.height))).map (fun rd => rd.2) :=
  ⟨by decide,
   C9_halfopen_hit [(⟨0, 0, 10, 5⟩, "a")] 0 0 MouseButton.Left (by decide)⟩

/-- C10: only key events of kind Press are dispatched — Release and Repeat
events launch nothing and never quit — and dispatch reads only the key code,
never the modifiers. -/
theorem C10_press_only (targets : List (Rect × Bytes)) (key : KeyEvent) :
    (key.kind ≠ KeyEventKind.Press →
      handle_events targets (some (Event.Key key)) = ⟨[], false⟩) ∧
    (∀ mods : Nat,
      handle_events targets (some (Event.Key ⟨key.code, mods, key.kind⟩))
        = handle_events targets (some (Event.Key key))) := by
  constructor
  · intro h
    rcases key with ⟨c, m, k⟩
    cases k with
    | Press => exact absurd rfl h
    | Repeat => rfl
    | Release => rfl
  · intro mods
    rfl

/-- C10 witness: releasing Escape neither launches nor quits; pressing 'g'
with modifiers held dispatches exactly as without. -/
theorem C10_press_only_witness :
    handle_events [] (some (Event.Key ⟨KeyCode.Esc, 0, KeyEventKind.Release⟩)) = ⟨[], false⟩ ∧
    handle_events [] (some (Event.Key ⟨KeyCode.Char 'g', 7, KeyEventKind.Press⟩))
      = handle_events [] (some (Event.Key ⟨KeyCode.Char 'g', 0, KeyEventKind.Press⟩)) :=
  ⟨(C10_press_only [] ⟨KeyCode.Esc, 0, KeyEventKind.Release⟩).1 (by decide),
   (C10_press_only [] ⟨KeyCode.Char 'g', 0, KeyEventKind.Press⟩).2 7⟩

lemma layoutInv_frameStep (s : LoopState) (h : LayoutInv s) (sz : Size) :
    LayoutInv (frameStep s sz).1 := by
  intro sz' h'
  rw [frameStep] at h' ⊢
  by_cases hc : s.last_computed_size = some sz
  · rw [if_pos hc] at h' ⊢
    exact h sz' h'
  · rw [if_neg hc] at h' ⊢
    obtain rfl : sz = sz' := by simpa using h'
    rfl

lemma layoutInv_runFrames (s : LoopState) (h : LayoutInv s) (szs : List Size) :
    LayoutInv (runFrames s szs) := by
  induction szs generalizing s with
  | nil => exact h
  | cons sz szs ih => exact ih _ (layoutInv_frameStep s h sz)

lemma frameStep_rects (s : LoopState) (h : LayoutInv s) (sz : Size) :
    ((frameStep s sz).1).rects = computeLayout sz := by
  by_cases hc : s.last_computed_size = some sz
  · rw [frameStep, if_pos hc]
    exact h sz hc
  · rw [frameStep, if_neg hc]

/-- C5: layout recomputation runs only when the frame size differs from the
last resolved size; at an unchanged size `frameStep` performs no computation
and returns the state bit-identically, and resolving twice at the same size
is idempotent. -/
theorem C5_layout_memoized (s : LoopState) (sz : Size) :
    ((frameStep s sz).2 = true ↔ s.last_computed_size ≠ some sz) ∧
    (s.last_computed_size = some sz → frameStep s sz = (s, false)) ∧
    frameStep (frameStep s sz).1 sz = ((frameStep s sz).1, false) := by
  by_cases h : s.last_computed_size = some sz <;>
    simp [frameStep, h]

/-- C5 witness: at a state whose last resolved size is (80,24), another
(80,24) frame recomputes nothing and changes nothing. -/
theorem C5_layout_memoized_witness :
    (⟨some ⟨80, 24⟩, computeLayout ⟨80, 24⟩, generate_taffy_tree⟩
        : LoopState).last_computed_size = some ⟨80, 24⟩ ∧
    frameStep ⟨some ⟨80, 24⟩, computeLayout ⟨80, 24⟩, generate_taffy_tree⟩ ⟨80, 24⟩
      = (⟨some ⟨80, 24⟩, computeLayout ⟨80, 24⟩, generate_taffy_tree⟩, false) :=
  ⟨rfl, (C5_layout_memoized ⟨some ⟨80, 24⟩, computeLayout ⟨80, 24⟩,
      generate_taffy_tree⟩ ⟨80, 24⟩).2.1 rfl⟩

/-- C6: layout resolution is deterministic — after any sequence of frames
ending at a given viewport size, the stored rectangles are exactly that
size's resolution, a pure function of the size with no dependence on the
intervening history (hence no randomness or time-dependence). -/
theorem C6_layout_deterministic (s : LoopState) (h : LayoutInv s)
    (szs : List Size) (sz : Size) :
    (runFrames s (szs ++ [sz])).rects = computeLayout sz := by
  have h2 := layoutInv_runFrames s h szs
  rw [runFrames, List.foldl_append]
  exact frameStep_rects (runFrames s szs) h2 sz

/-- C6 witness: feeding (80,24) then (40,24) then (80,24) reproduces the
resolution of feeding (80,24) alone. -/
theorem C6_layout_deterministic_witness :
    LayoutInv initialState ∧
    (runFrames initialState ([⟨80, 24⟩, ⟨40, 24⟩] ++ [⟨80, 24⟩])).rects
      = (runFrames initialState ([] ++ [⟨80, 24⟩])).rects :=
  ⟨(fun _ h => nomatch h : LayoutInv initialState),
   (C6_layout_deterministic initialState (fun _ h => nomatch h)
      [⟨80, 24⟩, ⟨40, 24⟩] ⟨80, 24⟩).trans
     (C6_layout_deterministic initialState (fun _ h => nomatch h) [] ⟨80, 24⟩).symm⟩

/-- C7: the tree built at startup has exactly one tile leaf per `CONFIG`
entry; the node binding maps the leaves, in order, to exactly the `CONFIG`
entries; and no frame step ever mutates the tree shape or the binding. -/
theorem C7_tree_binding :
    generate_taffy_tree.leaves.length = CONFIG.length ∧
    generate_taffy_tree.mapping.map (fun p => p.2) = CONFIG ∧
    generate_taffy_tree.mapping.map (fun p => p.1) = generate_taffy_tree.leaves ∧
    generate_taffy_tree.leaves.Nodup ∧
    (∀ s sz, ((frameStep s sz).1).tree = s.tree) := by
  refine ⟨by decide, by decide, by decide, by decide, ?_⟩
  intro s sz
  by_cases hc : s.last_computed_size = some sz
  · rw [frameStep, if_pos hc]
  · rw [frameStep, if_neg hc]

/-- C1 counterexample: with every startup step succeeding, a terminal draw
error on the first frame exits `main` with raw mode, alternate screen and
mouse capture all still enabled, so the claimed full restoration on every
exit path fails. -/
theorem C1_counterexample :
    runMain true true true true true [FrameOutcome.drawErr] true true true
      = MainResult.exited false ⟨true, true, true⟩ ∧
    (⟨true, true, true⟩ : TermState) ≠ (⟨false, false, false⟩ : TermState) := by
  decide

/-- C1 amended: terminal state is fully restored on the normal exit path
(quit key, with the teardown commands succeeding); but a terminal I/O error
during a frame draw or event poll propagates out of `main` with all three
modes still enabled, and a startup error occurring after raw mode was
enabled exits with the modes acquired so far unrestored. -/
theorem C1_exit_restoration (frames : List FrameOutcome)
    (hq : mainLoop frames = LoopResult.quitOk) :
    runMain true true true true true frames true true true
      = MainResult.exited true ⟨false, false, false⟩ ∧
    (∀ frames2, mainLoop frames2 = LoopResult.ioErr →
      runMain true true true true true frames2 true true true
        = MainResult.exited false ⟨true, true, true⟩) ∧
    runMain true true false true true [] true true true
      = MainResult.exited false ⟨true, false, false⟩ := by
  refine ⟨?_, ?_, rfl⟩
  · simp [runMain, hq, mainTeardown]
  · intro frames2 h2
    simp [runMain, h2]

/-- C1 amended witness: a quit after one ordinary frame exits Ok with all
modes restored; a poll error exits with nothing restored. -/
theorem C1_exit_restoration_witness :
    mainLoop [FrameOutcome.next, FrameOutcome.quitFrame] = LoopResult.quitOk ∧
    runMain true true true true true [FrameOutcome.next, FrameOutcome.quitFrame] true true true
      = MainResult.exited true ⟨false, false, false⟩ ∧
    runMain true true true true true [FrameOutcome.pollErr] true true true
      = MainResult.exited false ⟨true, true, true⟩ :=
  ⟨rfl,
   (C1_exit_restoration [FrameOutcome.next, FrameOutcome.quitFrame] rfl).1,
   (C1_exit_restoration [FrameOutcome.next, FrameOutcome.quitFrame] rfl).2.1
      [FrameOutcome.pollErr] rfl⟩

lemma ncols_pos (W : Nat) : 0 < ncols W :=
  lt_of_lt_of_le Nat.zero_lt_one (le_max_left 1 (W / 10))

lemma colWidth_ge_ten (W : Nat) : 10 ≤ colWidth W :=
  le_min (le_max_right (W / ncols W) 10) (by norm_num)

lemma colWidth_le_forty (W : Nat) : colWidth W ≤ 40 :=
  min_le_right _ _

lemma ncols_eq_of_ten_le (W : Nat) (h : 10 ≤ W) : ncols W = W / 10 :=
  max_eq_right ((Nat.one_le_div_iff (by norm_num)).mpr h)

lemma ten_le_div_ncols (W : Nat) (h : 10 ≤ W) : 10 ≤ W / ncols W := by
  rw [ncols_eq_of_ten_le W h]
  have hq : 0 < W / 10 := (Nat.one_le_div_iff (by norm_num)).mpr h
  rw [Nat.le_div_iff_mul_le hq]
  calc 10 * (W / 10) = (W / 10) * 10 := Nat.mul_comm _ _
    _ ≤ W := Nat.div_mul_le_self W 10

lemma ncols_mul_colWidth_le (W : Nat) (h : 10 ≤ W) : ncols W * colWidth W ≤ W := by
  have h1 : colWidth W ≤ W / ncols W := by
    rw [colWidth, max_eq_left (ten_le_div_ncols W h)]
    exact min_le_left _ _
  calc ncols W * colWidth W
      ≤ ncols W * (W / ncols W) := Nat.mul_le_mul_left _ h1
    _ ≤ W := Nat.mul_div_le W (ncols W)

lemma tile_width_bounds (W : Nat) :
    ∀ r ∈ tileRects W, min W 10 ≤ r.width ∧ r.width ≤ 40 := by
  intro r hr
  obtain ⟨i, hi, rfl⟩ := List.mem_map.mp hr
  exact ⟨le_trans (min_le_right W 10) (colWidth_ge_ten W), colWidth_le_forty W⟩

lemma strips_disjoint_lt {w a b col : Nat} (h : a < b)
    (h2 : col < a * w + w) (h3 : b * w ≤ col) : False := by
  have hm : (a + 1) * w ≤ b * w := Nat.mul_le_mul_right w h
  have ha1 : (a + 1) * w = a * w + w := by ring
  omega

lemma tileRect_disjoint (W i j : Nat) (hij : i ≠ j) :
    Rect.Disjoint (tileRect W i) (tileRect W j) := by
  intro col row hc2
  obtain ⟨hi, hj⟩ := hc2
  simp only [Rect.covers, tileRect] at hi hj
  obtain ⟨hi1, hi2, hi3, hi4⟩ := hi
  obtain ⟨hj1, hj2, hj3, hj4⟩ := hj
  by_cases hc : i % ncols W = j % ncols W
  · have hr : i / ncols W ≠ j / ncols W := by
      intro hr
      apply hij
      have hdi := Nat.div_add_mod i (ncols W)
      have hdj := Nat.div_add_mod j (ncols W)
      have : ncols W * (i / ncols W) = ncols W * (j / ncols W) := by rw [hr]
      omega
    rcases Nat.lt_or_ge (i / ncols W) (j / ncols W) with h | h
    · exact strips_disjoint_lt h hi4 hj3
    · exact strips_disjoint_lt (lt_of_le_of_ne h (Ne.symm hr)) hj4 hi3
  · rcases Nat.lt_or_ge (i % ncols W) (j % ncols W) with h | h
    · exact strips_disjoint_lt h hi2 hj1
    · exact strips_disjoint_lt (lt_of_le_of_ne h (Ne.symm hc)) hj2 hi1

lemma tileRects_pairwise (W : Nat) : (tileRects W).Pairwise Rect.Disjoint := by
  rw [tileRects, List.pairwise_map]
  exact (List.pairwise_lt_range _).imp (fun h => tileRect_disjoint W _ _ (Nat.ne_of_lt h))

lemma tile_within_container (W H : Nat) (h10 : 10 ≤ W) (h15 : 15 ≤ H) :
    ∀ r ∈ tileRects W, r.within (containerRect ⟨W, H⟩) := by
  intro r hr
  obtain ⟨i, hi, rfl⟩ := List.mem_map.mp hr
  have hiN : i < CONFIG.length := List.mem_range.mp hi
  have hlen : CONFIG.length = 3 := rfl
  intro col row hcov
  simp only [Rect.covers, tileRect, containerRect] at hcov ⊢
  obtain ⟨h1, h2, h3, h4⟩ := hcov
  have hcol : col < W := by
    calc col < (i % ncols W) * colWidth W + colWidth W := h2
      _ = (i % ncols W + 1) * colWidth W := by ring
      _ ≤ ncols W * colWidth W :=
          Nat.mul_le_mul_right _ (Nat.succ_le_of_lt (Nat.mod_lt i (ncols_pos W)))
      _ ≤ W := ncols_mul_colWidth_le W h10
  have hdiv : i / ncols W ≤ i := Nat.div_le_self i (ncols W)
  have hrow : row < H := by
    have h5 : (i / ncols W + 1) * 5 = (i / ncols W) * 5 + 5 := by ring
    have h6 : i / ncols W + 1 ≤ 3 := by omega
    have h7 : (i / ncols W + 1) * 5 ≤ 15 := by omega
    omega
  omega

/-- C4 counterexample: at viewport width 5 the single auto-fitted column is
clamped to the track minimum 10 and overflows the container horizontally;
at viewport height 1 a tile of fixed height 5 overflows vertically — so the
union of tile rectangles does not always lie within the full-viewport
container. -/
theorem C4_counterexample :
    (¬ ∀ r ∈ tileRects 5, r.within (containerRect ⟨5, 24⟩)) ∧
    (¬ ∀ r ∈ tileRects 80, r.within (containerRect ⟨80, 1⟩)) := by
  constructor
  · intro h
    have h2 := h (tileRect 5 0) (by decide) 9 0 (by decide)
    exact absurd h2 (by decide)
  · intro h
    have h2 := h (tileRect 80 0) (by decide) 0 4 (by decide)
    exact absurd h2 (by decide)

/-- C4 amended: for every viewport width W ≥ 1 and the fixed tile set, every
tile rectangle's width lies in [min(W,10), 40], the tile rectangles are
pairwise disjoint, a viewport narrower than 10 cells still yields one
column, and the container occupies exactly the full viewport; the union of
the tiles lies within the container provided the viewport is at least 10
wide (otherwise the clamped column overflows horizontally) and at least 15
tall (enough rows for the three tiles at any width). -/
theorem C4_tile_geometry (W H : Nat) (_hW : 1 ≤ W) :
    (∀ r ∈ tileRects W, min W 10 ≤ r.width ∧ r.width ≤ 40) ∧
    (tileRects W).Pairwise Rect.Disjoint ∧
    (W < 10 → ncols W = 1) ∧
    containerRect ⟨W, H⟩ = ⟨0, 0, W, H⟩ ∧
    (10 ≤ W → 15 ≤ H → ∀ r ∈ tileRects W, r.within (containerRect ⟨W, H⟩)) := by
  refine ⟨tile_width_bounds W, tileRects_pairwise W, ?_, rfl,
    fun h10 h15 => tile_within_container W H h10 h15⟩
  intro hlt
  simp [ncols, Nat.div_eq_of_lt hlt]

/-- C4 witness: at viewport (80, 24) the widths, disjointness, and
containment all hold concretely. -/
theorem C4_tile_geometry_witness :
    1 ≤ 80 ∧
    ((∀ r ∈ tileRects 80, min 80 10 ≤ r.width ∧ r.width ≤ 40) ∧
     (tileRects 80).Pairwise Rect.Disjoint ∧
     (80 < 10 → ncols 80 = 1) ∧
     containerRect ⟨80, 24⟩ = ⟨0, 0, 80, 24⟩ ∧
     (10 ≤ 80 → 15 ≤ 24 → ∀ r ∈ tileRects 80, r.within (containerRect ⟨80, 24⟩))) ∧
    (∀ r ∈ tileRects 80, r.within (containerRect ⟨80, 24⟩)) :=
  ⟨by decide,
   C4_tile_geometry 80 24 (by decide),
   (C4_tile_geometry 80 24 (by decide)).2.2.2.2 (by decide) (by decide)⟩

end Soundboard
